import Mathlib

/-!
Shallow embedding of the gemini-mcp core pipeline (batch orchestration,
process-error classification, command building, and heuristic text
extraction) together with proofs of the specified properties.

Sources embedded:
  * `GeminiClient` (batchAnalyze, buildAnalysisPrompt, buildGeminiCommand,
    parseAnalysisResult, extractObjectsList, extractCategories,
    extractConfidenceScore, extractColorInfo, updateConfig);
  * `utils/error-handling` (mapChildProcessError and the error factories it
    uses);
  * `constants/defaults` (DEFAULT_GEMINI_CONFIG, DEFAULT_CONFIDENCE_SCORE).

Modelling conventions:
  * JavaScript strings are Lean `String`s; character-level scanning works on
    `String.data : List Char`.
  * JavaScript numbers appearing here (temperature, confidence scores,
    percentages) are embedded as `ℚ`; exit codes and token counts as `Int`.
  * The JavaScript regular expressions used by the extractors are embedded as
    explicit character-list matchers with the same first-match / greedy
    semantics on the pattern shapes that occur in the source.
  * `\s` is embedded as membership in a fixed set of common whitespace code
    points (space, tab, CR, LF, VT, FF, NBSP, ideographic space).
  * A per-item analysis (`analyzeImage`) is an abstract function returning
    `Except`, standing for a promise that either fulfills or rejects; the
    deterministic collection order of `Promise.allSettled` is preserved.
-/

/-- JS `\s` character class, restricted to the whitespace code points that can
realistically occur in tool output (space, tab, LF, CR, VT, FF, NBSP,
ideographic space). -/
def isJsWS (c : Char) : Bool :=
  c == ' ' || c == '\t' || c == '\n' || c == '\r' ||
  c == Char.ofNat 11 || c == Char.ofNat 12 ||
  c == Char.ofNat 0xa0 || c == Char.ofNat 0x3000

/-- Does `l` start with the pattern `p`? (character-list version of a literal
string test at the current scan position). -/
def startsWithChars : List Char → List Char → Bool
  | [], _ => true
  | _ :: _, [] => false
  | p :: ps, c :: cs => p == c && startsWithChars ps cs

/-- Does `pat` occur as a contiguous substring of `l`?  Embeds JavaScript
`String.prototype.includes`. -/
def containsSub (pat : List Char) : List Char → Bool
  | [] => startsWithChars pat []
  | c :: cs => startsWithChars pat (c :: cs) || containsSub pat cs

/-- JavaScript `haystack.includes(needle)`. -/
def strIncludes (haystack needle : String) : Bool :=
  containsSub needle.data haystack.data

/-- Split a character list at every character satisfying `p` (the separators
are dropped; empty fields are kept, as JS `split` does). -/
def splitOnPred (p : Char → Bool) : List Char → List (List Char)
  | [] => [[]]
  | c :: cs =>
    if p c then [] :: splitOnPred p cs
    else
      match splitOnPred p cs with
      | [] => [[c]]
      | l :: ls => (c :: l) :: ls

/-- `text.split('\n')` on character lists. -/
def splitLines (cs : List Char) : List (List Char) :=
  splitOnPred (fun c => c == '\n') cs

/-- Strip `\s`-whitespace from both ends (JS `trim()`). -/
def trimChars (cs : List Char) : List Char :=
  ((cs.dropWhile isJsWS).reverse.dropWhile isJsWS).reverse

/-- `ErrorCode` enum from `types.ts`. -/
inductive ErrorCode where
  | GEMINI_AUTH_ERROR
  | IMAGE_TOO_LARGE
  | ANALYSIS_TIMEOUT
  | INVALID_IMAGE_FORMAT
  | RATE_LIMIT_EXCEEDED
  | FILE_NOT_FOUND
  | NETWORK_ERROR
  deriving DecidableEq, Repr

/-- A value stored in an error's `details` record: either a captured output
string or a (possibly null) exit code. -/
inductive DVal where
  | s (v : String)
  | c (v : Option Int)
  deriving DecidableEq, Repr

/-- `GeminiMCPError` from `types.ts`: a classified error carrying a code, a
human-readable message, and a diagnostic details record (embedded as an
association list). -/
structure GeminiMCPError where
  code : ErrorCode
  message : String
  details : List (String × DVal)
  deriving DecidableEq, Repr

/-- The `{ stderr, stdout, code }` details object passed by
`mapChildProcessError` to every error factory it calls. -/
def childDetails (stderr stdout : String) (code : Option Int) :
    List (String × DVal) :=
  [("stderr", DVal.s stderr), ("stdout", DVal.s stdout), ("code", DVal.c code)]

/-- `createGeminiErrors.authenticationFailed` from `utils/error-handling.ts`. -/
def authenticationFailed (details : List (String × DVal)) : GeminiMCPError :=
  ⟨ErrorCode.GEMINI_AUTH_ERROR, "Gemini API認証に失敗しました", details⟩

/-- `createGeminiErrors.rateLimitExceeded` from `utils/error-handling.ts`. -/
def rateLimitExceeded (details : List (String × DVal)) : GeminiMCPError :=
  ⟨ErrorCode.RATE_LIMIT_EXCEEDED, "レート制限に達しました", details⟩

/-- `createGeminiErrors.networkError` from `utils/error-handling.ts`. -/
def networkError (msg : String) (details : List (String × DVal)) :
    GeminiMCPError :=
  ⟨ErrorCode.NETWORK_ERROR, "ネットワークエラー: " ++ msg, details⟩

/-- Rendering of a JS `number | null` inside a template literal. -/
def codeToString : Option Int → String
  | none => "null"
  | some n => toString n

/-- `mapChildProcessError` from `utils/error-handling.ts`: classify a child
process failure by inspecting the captured stderr, authentication first, then
rate limit / quota, else a generic execution failure carrying the exit code
and both buffers. -/
def mapChildProcessError (stderr stdout : String) (code : Option Int) :
    GeminiMCPError :=
  if strIncludes stderr "Authentication failed" || strIncludes stderr "Unauthorized" then
    authenticationFailed (childDetails stderr stdout code)
  else if strIncludes stderr "Rate limit" || strIncludes stderr "quota" then
    rateLimitExceeded (childDetails stderr stdout code)
  else
    networkError ("Gemini CLI実行エラー (code: " ++ codeToString code ++ ")")
      (childDetails stderr stdout code)

/-- One of the bullet characters of the regex `/^[-*•]\s+/`. -/
def isBulletMark (c : Char) : Bool :=
  c == '-' || c == '*' || c == '•'

/-- `line.match(/^[-*•]\s+/)` is non-null: a bullet character followed by at
least one whitespace character. -/
def matchBullet : List Char → Bool
  | c :: d :: _ => isBulletMark c && isJsWS d
  | _ => false

/-- `line.match(/^\d+\.\s+/)` is non-null: one or more digits, a period, then
at least one whitespace character. -/
def matchNum (cs : List Char) : Bool :=
  (!(cs.takeWhile Char.isDigit).isEmpty) &&
    (match cs.dropWhile Char.isDigit with
     | '.' :: e :: _ => isJsWS e
     | _ => false)

/-- `line.replace(/^[-*•]\s+/, '')`: when the anchored pattern matches, remove
the bullet mark and the (greedy, maximal) whitespace run after it. -/
def stripBullet (cs : List Char) : List Char :=
  if matchBullet cs then (cs.drop 1).dropWhile isJsWS else cs

/-- `line.replace(/^\d+\.\s+/, '')`: when the anchored pattern matches, remove
the digit run, the period and the (greedy, maximal) whitespace run. -/
def stripNum (cs : List Char) : List Char :=
  if matchNum cs then ((cs.dropWhile Char.isDigit).drop 1).dropWhile isJsWS
  else cs

/-- `GeminiClient.extractObjectsList`: split into lines, keep the lines that
match a bullet or numbered-list marker, strip both markers and trim, drop
entries that became empty. -/
def extractObjectsList (text : String) : List String :=
  ((((splitLines text.data).filter
        (fun line => matchBullet line || matchNum line)).map
      (fun line => trimChars (stripNum (stripBullet line)))).filter
    (fun item => 0 < item.length)).map List.asString

/-- Capture of `\s*([^\n]+)` at the current position (greedy `\s*`, then a
nonempty maximal run of non-newline characters, with the regex engine's
backtracking of `\s*` when the remaining text would otherwise be empty):
returns the captured characters, or `none` when no nonempty capture exists. -/
def captureWsNonNl (r : List Char) : Option (List Char) :=
  let w := r.takeWhile isJsWS
  let rest := r.drop w.length
  match rest with
  | c :: tl =>
    -- `rest` starts with a non-whitespace (hence non-newline) character:
    -- the capture is the maximal non-newline run from here.
    some ((c :: tl).takeWhile (fun d => !(d == '\n')))
  | [] =>
    -- the whole remainder is whitespace: `\s*` backtracks to the last
    -- position holding a non-newline character, if any; every character
    -- after that position is a newline, so the capture is that single
    -- character.
    match w.reverse.dropWhile (fun d => d == '\n') with
    | [] => none
    | c :: _ => some [c]

/-- Scan positions of the text left to right and return the first successful
match of `m`, as a JS regex search does. -/
def scanFor {α : Type} (m : List Char → Option α) : List Char → Option α
  | [] => m []
  | c :: cs =>
    match m (c :: cs) with
    | some v => some v
    | none => scanFor m cs

/-- Attempt to match `label[：:]\s*([^\n]+)` at the current position, returning
the capture group. -/
def matchLabelAt (label : List Char) (cs : List Char) : Option (List Char) :=
  if startsWithChars label cs then
    match cs.drop label.length with
    | sep :: r => if sep == '：' || sep == ':' then captureWsNonNl r else none
    | [] => none
  else none

/-- `text.match(/カテゴリ[：:]\s*([^\n]+)/i)`: first match's capture group. -/
def catMatch (text : String) : Option (List Char) :=
  scanFor (matchLabelAt "カテゴリ".data) text.data

/-- `text.match(/タグ[：:]\s*([^\n]+)/i)`: first match's capture group. -/
def tagMatch (text : String) : Option (List Char) :=
  scanFor (matchLabelAt "タグ".data) text.data

/-- `value.split(/[,、]/).map(c => c.trim())` applied to a matched label
value. -/
def splitAndTrim (v : List Char) : List String :=
  ((splitOnPred (fun c => c == ',' || c == '、') v).map trimChars).map
    List.asString

/-- `GeminiClient.extractCategories`: collect the split-and-trimmed values of
the first カテゴリ label match and the first タグ label match, categories
first. -/
def extractCategories (text : String) : List String :=
  (match catMatch text with
   | some v => splitAndTrim v
   | none => []) ++
  (match tagMatch text with
   | some v => splitAndTrim v
   | none => [])

/-- Attempt to match `色[：:]([^\n]+)` at the current position (no `\s*` in
this regex): the capture is the maximal nonempty non-newline run after the
separator. -/
def matchColorAt (cs : List Char) : Option (List Char) :=
  if startsWithChars "色".data cs then
    match cs.drop 1 with
    | sep :: r =>
      if sep == '：' || sep == ':' then
        match r with
        | c :: tl =>
          if c == '\n' then none
          else some ((c :: tl).takeWhile (fun d => !(d == '\n')))
        | [] => none
      else none
    | [] => none
  else none

/-- `text.match(/色[：:]([^\n]+)/i)`: first match's capture group. -/
def colorMatch (text : String) : Option (List Char) :=
  scanFor matchColorAt text.data

/-- Color record `{ color, percentage, rgb }` from `types.ts`. -/
structure ColorInfo where
  color : String
  percentage : ℚ
  rgb : Int × Int × Int
  deriving DecidableEq, Repr

/-- The fixed color vocabulary of `extractColorInfo`. -/
def basicColors : List String :=
  ["赤", "青", "緑", "黄", "黒", "白", "茶", "紫", "オレンジ"]

/-- `GeminiClient.extractColorInfo`: find the first 色 label; for every basic
color name contained in the matched value emit a record with placeholder
percentage 0.1 and placeholder RGB (0,0,0). -/
def extractColorInfo (text : String) : List ColorInfo :=
  match colorMatch text with
  | none => []
  | some colorText =>
    (basicColors.filter (fun col => containsSub col.data colorText)).map
      (fun col => ⟨col, 1/10, (0, 0, 0)⟩)

/-- Numeric value of a digit run. -/
def natOfDigits (ds : List Char) : Nat :=
  ds.foldl (fun a c => a * 10 + (c.toNat - '0'.toNat)) 0

/-- `parseFloat` on a capture of shape `\d+(\.\d+)?`: integer digits plus an
optional fractional digit run. -/
def ratOfDecimal (ip fp : List Char) : ℚ :=
  (natOfDigits ip : ℚ) + (natOfDigits fp : ℚ) / ((10 : ℚ) ^ fp.length)

/-- Attempt to match `信頼度[：:]?\s*(\d+(?:\.\d+)?)[%％]?` at the current
position, returning the parsed numeric value of the capture group. -/
def matchConfAt (cs : List Char) : Option ℚ :=
  if startsWithChars "信頼度".data cs then
    let r0 := cs.drop ("信頼度".data).length
    let r1 := match r0 with
      | sep :: t => if sep == '：' || sep == ':' then t else r0
      | [] => r0
    let r2 := r1.dropWhile isJsWS
    let ds := r2.takeWhile Char.isDigit
    if ds.isEmpty then none
    else
      let r3 := r2.drop ds.length
      let fd := match r3 with
        | '.' :: t => t.takeWhile Char.isDigit
        | _ => []
      some (ratOfDecimal ds fd)
  else none

/-- `text.match(/信頼度[：:]?\s*(\d+(?:\.\d+)?)[%％]?/)`: parsed value of the
first match's capture group. -/
def confMatch (text : String) : Option ℚ :=
  scanFor matchConfAt text.data

/-- `DEFAULT_CONFIDENCE_SCORE` from `constants/defaults.ts`. -/
def DEFAULT_CONFIDENCE_SCORE : ℚ := 8/10

/-- `GeminiClient.extractConfidenceScore`: parse the first labeled confidence
value; a value greater than 1 is treated as a percentage and divided by 100;
no match yields the default. -/
def extractConfidenceScore (text : String) : ℚ :=
  match confMatch text with
  | some score => if 1 < score then score / 100 else score
  | none => DEFAULT_CONFIDENCE_SCORE

/-- Language enum `'ja' | 'en' | 'auto'` from `types.ts`. -/
inductive Lang where
  | ja
  | en
  | auto
  deriving DecidableEq, Repr

/-- `GeminiAnalysisConfig` from `types.ts` (model name, sampling temperature,
output token limit, response language). -/
structure GeminiAnalysisConfig where
  model : String
  temperature : ℚ
  maxOutputTokens : Int
  language : Lang
  deriving DecidableEq, Repr

/-- `DEFAULT_GEMINI_CONFIG` from `constants/defaults.ts`. -/
def DEFAULT_GEMINI_CONFIG : GeminiAnalysisConfig :=
  { model := "gemini-2.5-pro"
    temperature := 7/10
    maxOutputTokens := 2048
    language := Lang.ja }

/-- `analysisType` enum from `types.ts`. -/
inductive AnalysisType where
  | describe
  | ocr
  | classify
  | detect_objects
  deriving DecidableEq, Repr

/-- `detailLevel` enum from `types.ts`. -/
inductive DetailLevel where
  | brief
  | standard
  | detailed
  deriving DecidableEq, Repr

/-- `ImageAnalysisOptions` from `types.ts`. -/
structure ImageAnalysisOptions where
  analysisType : AnalysisType
  detailLevel : DetailLevel
  includeConfidence : Bool
  extractColors : Bool
  detectFaces : Bool
  readQRCodes : Bool
  includeMetadata : Bool
  deriving DecidableEq, Repr

/-- The `prompts` base-template table inside
`GeminiClient.buildAnalysisPrompt`, keyed by analysis type. -/
def basePromptOf : AnalysisType → String
  | AnalysisType.describe => "画像に写っているものを詳しく説明してください。"
  | AnalysisType.ocr => "画像内のテキストを正確に読み取って抽出してください。"
  | AnalysisType.classify => "画像のカテゴリを分類し、タグを付けてください。"
  | AnalysisType.detect_objects => "画像内のオブジェクトを検出して一覧にしてください。"

/-- `GeminiClient.buildAnalysisPrompt`: base template by analysis type, then a
detail-level qualifier, then one clause per active flag in the fixed order
confidence → colors → faces → QR, then the language preamble prefixed last.
The client's `this.config.language` is passed explicitly. -/
def buildAnalysisPrompt (language : Lang) (options : ImageAnalysisOptions) :
    String :=
  let prompt := basePromptOf options.analysisType
  let prompt :=
    match options.detailLevel with
    | DetailLevel.brief => prompt ++ " 簡潔にまとめてください。"
    | DetailLevel.detailed => prompt ++ " 可能な限り詳細に分析してください。"
    | DetailLevel.standard => prompt
  let prompt :=
    if options.includeConfidence then
      prompt ++ " 各項目について信頼度スコアも含めてください。"
    else prompt
  let prompt :=
    if options.extractColors then prompt ++ " 主要な色情報も分析してください。"
    else prompt
  let prompt :=
    if options.detectFaces then
      prompt ++ " 人物の顔が写っている場合は検出してください。"
    else prompt
  let prompt :=
    if options.readQRCodes then
      prompt ++ " QRコードがある場合は読み取ってください。"
    else prompt
  match language with
  | Lang.en => "Please respond in English. " ++ prompt
  | Lang.ja => "日本語で回答してください。" ++ prompt
  | Lang.auto => prompt

/-- Decimal rendering of a JS number used when an argument value is appended;
the exact digit string is irrelevant to every property proved here, so the
canonical `ℚ` rendering is used. -/
def numToString (q : ℚ) : String := toString q

/-- `GeminiClient.buildGeminiCommand`: the fixed tool identifier, prompt flag
and file flag, then each of model / temperature / max-tokens only when it
differs from the compiled-in default. -/
def buildGeminiCommand (config : GeminiAnalysisConfig)
    (prompt imagePath : String) : List String :=
  let args := ["@google-ai/generative-ai-cli", "--prompt", prompt,
               "--file", imagePath]
  let args :=
    if config.model ≠ DEFAULT_GEMINI_CONFIG.model then
      args ++ ["--model", config.model]
    else args
  let args :=
    if config.temperature ≠ DEFAULT_GEMINI_CONFIG.temperature then
      args ++ ["--temperature", numToString config.temperature]
    else args
  let args :=
    if config.maxOutputTokens ≠ DEFAULT_GEMINI_CONFIG.maxOutputTokens then
      args ++ ["--max-tokens", toString config.maxOutputTokens]
    else args
  args

/-- `Partial<GeminiAnalysisConfig>`: each field either absent (`none`) or
supplying a new value. -/
structure GeminiAnalysisConfigUpdate where
  model : Option String
  temperature : Option ℚ
  maxOutputTokens : Option Int
  language : Option Lang
  deriving DecidableEq, Repr

/-- The empty `Partial<GeminiAnalysisConfig>` object `{}`. -/
def emptyConfigUpdate : GeminiAnalysisConfigUpdate :=
  ⟨none, none, none, none⟩

/-- `GeminiClient.updateConfig`: the object spread
`{ ...this.config, ...newConfig }` — every field present in the update wins,
every absent field keeps its prior value. -/
def updateConfig (config : GeminiAnalysisConfig)
    (newConfig : GeminiAnalysisConfigUpdate) : GeminiAnalysisConfig :=
  { model := newConfig.model.getD config.model
    temperature := newConfig.temperature.getD config.temperature
    maxOutputTokens := newConfig.maxOutputTokens.getD config.maxOutputTokens
    language := newConfig.language.getD config.language }

/-- `ImageMetadata` from `types.ts`; supplied by the metadata collaborator and
copied verbatim into the result (the `exif` record is opaque here). -/
structure ImageMetadata where
  filename : String
  size : Int
  width : Int
  height : Int
  format : String
  deriving DecidableEq, Repr

/-- `AnalysisResult` from `types.ts`. -/
structure AnalysisResult where
  description : String
  objects : List String
  text : String
  metadata : ImageMetadata
  confidence : ℚ
  colors : List ColorInfo
  processingTime : Int
  deriving DecidableEq, Repr

/-- `GeminiClient.parseAnalysisResult`: base population, per-analysis-type
dispatch, then confidence and color extraction when the respective flags are
set.  The metadata (fetched from the filesystem collaborator in the source) is
passed in explicitly. -/
def parseAnalysisResult (rawResult : String) (metadata : ImageMetadata)
    (options : ImageAnalysisOptions) (processingTime : Int) : AnalysisResult :=
  let result : AnalysisResult :=
    { description := rawResult
      objects := []
      text := ""
      metadata := metadata
      confidence := 8/10
      colors := []
      processingTime := processingTime }
  let result :=
    match options.analysisType with
    | AnalysisType.ocr => { result with text := rawResult }
    | AnalysisType.detect_objects =>
        { result with objects := extractObjectsList rawResult }
    | AnalysisType.classify =>
        { result with objects := extractCategories rawResult }
    | AnalysisType.describe => result
  let result :=
    if options.includeConfidence then
      { result with confidence := extractConfidenceScore rawResult }
    else result
  if options.extractColors then
    { result with colors := extractColorInfo rawResult }
  else result

/-- The settled state of one per-item promise: `Except.ok` for fulfilled,
`Except.error` for rejected. -/
def exceptToOption {E A : Type} : Except E A → Option A
  | Except.ok a => some a
  | Except.error _ => none

/-- The per-window collection loop of `batchAnalyze`: push the value of every
fulfilled result, skip (log) every rejected one, in the order returned by
`Promise.allSettled` — the window's input order. -/
def collectSettled {E A : Type} : List (Except E A) → List A
  | [] => []
  | Except.ok v :: rest => v :: collectSettled rest
  | Except.error _ :: rest => collectSettled rest

/-- The window decomposition performed by the loop
`for (i = 0; i < n; i += C) slice(i, i + C)`, with explicit fuel (the loop
advances by `C ≥ 1` positions per iteration, so `l.length` fuel suffices). -/
def chunksF {α : Type} (C : Nat) : Nat → List α → List (List α)
  | _, [] => []
  | 0, _ :: _ => []
  | fuel + 1, x :: xs => (x :: xs).take C :: chunksF C fuel ((x :: xs).drop C)

/-- Contiguous windows of size `C` (final window possibly smaller). -/
def chunksOf {α : Type} (C : Nat) (l : List α) : List (List α) :=
  chunksF C l.length l

/-- `GeminiClient.batchAnalyze`: process the input paths window by window, each
window dispatched through the abstract per-item analysis `analyze` (standing
for `this.analyzeImage(path, options)`, a promise that fulfills with a result
or rejects with an error), collecting the fulfilled values of each window in
order.  `maxConcurrency` is the value of `getMaxConcurrentRequests()`. -/
def batchAnalyze {E A : Type} (maxConcurrency : Nat)
    (analyze : String → ImageAnalysisOptions → Except E A)
    (imagePaths : List String) (options : ImageAnalysisOptions) : List A :=
  ((chunksOf maxConcurrency imagePaths).map
    (fun batch => collectSettled (batch.map (fun p => analyze p options)))).flatten

/-! ## Helper lemmas -/

theorem collectSettled_eq_filterMap {E A : Type} (es : List (Except E A)) :
    collectSettled es = es.filterMap exceptToOption := by
  induction es with
  | nil => rfl
  | cons e rest ih => cases e <;> simp [collectSettled, exceptToOption, ih]

theorem chunksF_flatten_filterMap {α β : Type} (C : Nat) (hC : 0 < C)
    (g : α → Option β) :
    ∀ (fuel : Nat) (l : List α), l.length ≤ fuel →
      ((chunksF C fuel l).map (fun b => b.filterMap g)).flatten =
        l.filterMap g := by
  intro fuel
  induction fuel with
  | zero =>
    intro l hl
    cases l with
    | nil => rfl
    | cons x xs => simp at hl
  | succ n ih =>
    intro l hl
    cases l with
    | nil => rfl
    | cons x xs =>
      have hdrop : ((x :: xs).drop C).length ≤ n := by
        rw [List.length_drop]
        simp only [List.length_cons] at hl ⊢
        omega
      simp only [chunksF, List.map_cons, List.flatten_cons]
      rw [ih ((x :: xs).drop C) hdrop, ← List.filterMap_append,
        List.take_append_drop]

theorem batchAnalyze_eq_filterMap {E A : Type} (C : Nat) (hC : 0 < C)
    (analyze : String → ImageAnalysisOptions → Except E A)
    (paths : List String) (options : ImageAnalysisOptions) :
    batchAnalyze C analyze paths options =
      paths.filterMap (fun p => exceptToOption (analyze p options)) := by
  unfold batchAnalyze chunksOf
  simp only [collectSettled_eq_filterMap, List.filterMap_map]
  exact chunksF_flatten_filterMap C hC _ paths.length paths le_rfl

theorem chunksOf_flatten {α : Type} (C : Nat) (hC : 0 < C) (l : List α) :
    (chunksOf C l).flatten = l := by
  have h := chunksF_flatten_filterMap C hC (some : α → Option α) l.length l
    le_rfl
  simpa using h

theorem chunksF_mem_length {α : Type} (C : Nat) (hC : 0 < C) :
    ∀ (fuel : Nat) (l : List α) (w : List α), l.length ≤ fuel →
      w ∈ chunksF C fuel l → 0 < w.length ∧ w.length ≤ C := by
  intro fuel
  induction fuel with
  | zero =>
    intro l w hl hw
    cases l with
    | nil => simp [chunksF] at hw
    | cons x xs => simp at hl
  | succ n ih =>
    intro l w hl hw
    cases l with
    | nil => simp [chunksF] at hw
    | cons x xs =>
      simp only [chunksF, List.mem_cons] at hw
      rcases hw with rfl | hw
      · simp only [List.length_take, List.length_cons]
        omega
      · have hdrop : ((x :: xs).drop C).length ≤ n := by
          rw [List.length_drop]
          simp only [List.length_cons] at hl ⊢
          omega
        exact ih ((x :: xs).drop C) w hdrop hw

theorem chunksF_ne_nil {α : Type} (C : Nat) :
    ∀ (fuel : Nat) (l : List α), l ≠ [] → l.length ≤ fuel →
      chunksF C fuel l ≠ [] := by
  intro fuel l hne hl
  cases fuel with
  | zero =>
    cases l with
    | nil => exact absurd rfl hne
    | cons x xs => simp at hl
  | succ n =>
    cases l with
    | nil => exact absurd rfl hne
    | cons x xs => simp [chunksF]

theorem chunksF_dropLast_length {α : Type} (C : Nat) (hC : 0 < C) :
    ∀ (fuel : Nat) (l : List α) (w : List α), l.length ≤ fuel →
      w ∈ (chunksF C fuel l).dropLast → w.length = C := by
  intro fuel
  induction fuel with
  | zero =>
    intro l w hl hw
    cases l with
    | nil => simp [chunksF] at hw
    | cons x xs => simp at hl
  | succ n ih =>
    intro l w hl hw
    cases l with
    | nil => simp [chunksF] at hw
    | cons x xs =>
      have hdrop : ((x :: xs).drop C).length ≤ n := by
        rw [List.length_drop]
        simp only [List.length_cons] at hl ⊢
        omega
      by_cases hd : (x :: xs).drop C = []
      · simp [chunksF, hd] at hw
      · have hrest : chunksF C n ((x :: xs).drop C) ≠ [] :=
          chunksF_ne_nil C n _ hd hdrop
        obtain ⟨r, rs, hr⟩ := List.exists_cons_of_ne_nil hrest
        simp only [chunksF, hr, List.dropLast_cons₂, List.mem_cons] at hw
        rcases hw with rfl | hw
        · have hlen : 0 < ((x :: xs).drop C).length := List.length_pos.mpr hd
          rw [List.length_drop] at hlen
          simp only [List.length_take, List.length_cons] at *
          omega
        · exact ih ((x :: xs).drop C) w hdrop (by rw [hr]; exact hw)

/-! ## Claim theorems -/

/-- C9: `updateConfig` has partial-merge semantics — every field named in the
update takes the updated value, every unspecified field retains its prior
value, and updating with the empty partial object leaves the config unchanged
field-for-field. -/
theorem updateConfig_partial_merge (config : GeminiAnalysisConfig)
    (upd : GeminiAnalysisConfigUpdate) :
    ((updateConfig config upd).model = upd.model.getD config.model ∧
     (updateConfig config upd).temperature =
       upd.temperature.getD config.temperature ∧
     (updateConfig config upd).maxOutputTokens =
       upd.maxOutputTokens.getD config.maxOutputTokens ∧
     (updateConfig config upd).language = upd.language.getD config.language) ∧
    updateConfig config emptyConfigUpdate = config :=
  ⟨⟨rfl, rfl, rfl, rfl⟩, rfl⟩

/-- C8: the instruction string is the base template selected by
`analysisType`, followed by the detail-level qualifier (nothing for
`standard`), followed by one clause per active flag in the fixed order
confidence → colors → faces → QR, with the language preamble prefixed last
(`ja` and `en` add distinct leading sentences, `auto` adds none). -/
theorem buildAnalysisPrompt_structure (language : Lang)
    (options : ImageAnalysisOptions) :
    buildAnalysisPrompt language options =
      (match language with
       | Lang.en => "Please respond in English. "
       | Lang.ja => "日本語で回答してください。"
       | Lang.auto => "") ++
      basePromptOf options.analysisType ++
      (match options.detailLevel with
       | DetailLevel.brief => " 簡潔にまとめてください。"
       | DetailLevel.detailed => " 可能な限り詳細に分析してください。"
       | DetailLevel.standard => "") ++
      (if options.includeConfidence then
        " 各項目について信頼度スコアも含めてください。" else "") ++
      (if options.extractColors then " 主要な色情報も分析してください。"
       else "") ++
      (if options.detectFaces then
        " 人物の顔が写っている場合は検出してください。" else "") ++
      (if options.readQRCodes then
        " QRコードがある場合は読み取ってください。" else "") := by
  obtain ⟨a, d, ic, ec, df, rq, im⟩ := options
  cases language <;> cases a <;> cases d <;> cases ic <;> cases ec <;>
    cases df <;> cases rq <;> rfl

/-- C3: with every parameter equal to the compiled-in defaults the argument
list is exactly the tool identifier, the prompt flag with the instruction,
and the file flag with the input path; and each of the three parameters is
appended if and only if its value differs from its default. -/
theorem buildGeminiCommand_minimal_invocation (config : GeminiAnalysisConfig)
    (prompt imagePath : String) :
    (config.model = DEFAULT_GEMINI_CONFIG.model →
     config.temperature = DEFAULT_GEMINI_CONFIG.temperature →
     config.maxOutputTokens = DEFAULT_GEMINI_CONFIG.maxOutputTokens →
     buildGeminiCommand config prompt imagePath =
       ["@google-ai/generative-ai-cli", "--prompt", prompt,
        "--file", imagePath]) ∧
    buildGeminiCommand config prompt imagePath =
      ["@google-ai/generative-ai-cli", "--prompt", prompt,
       "--file", imagePath] ++
      (if config.model ≠ DEFAULT_GEMINI_CONFIG.model then
        ["--model", config.model] else []) ++
      (if config.temperature ≠ DEFAULT_GEMINI_CONFIG.temperature then
        ["--temperature", numToString config.temperature] else []) ++
      (if config.maxOutputTokens ≠ DEFAULT_GEMINI_CONFIG.maxOutputTokens then
        ["--max-tokens", toString config.maxOutputTokens] else []) := by
  constructor
  · intro h1 h2 h3
    simp [buildGeminiCommand, h1, h2, h3]
  · simp only [buildGeminiCommand]
    split_ifs <;> simp

/-- Witness for C3 at the default configuration and a concrete prompt and
path. -/
theorem buildGeminiCommand_minimal_invocation_witness :
    buildGeminiCommand DEFAULT_GEMINI_CONFIG "please describe" "/tmp/a.png" =
      ["@google-ai/generative-ai-cli", "--prompt", "please describe",
       "--file", "/tmp/a.png"] :=
  (buildGeminiCommand_minimal_invocation DEFAULT_GEMINI_CONFIG
    "please describe" "/tmp/a.png").1 rfl rfl rfl

/-- C2: stderr classification checks the authentication substrings first,
then the rate-limit / quota substrings, and otherwise yields the generic
execution-failure classification (the `NETWORK_ERROR`-coded error produced by
`createGeminiErrors.networkError`) carrying the exit code and both output
buffers; in particular exit code 1 with stderr containing "Rate limit" is
classified `RATE_LIMIT_EXCEEDED`. -/
theorem mapChildProcessError_classification (stderr stdout : String)
    (code : Option Int) :
    ((strIncludes stderr "Authentication failed" = true ∨
      strIncludes stderr "Unauthorized" = true) →
      (mapChildProcessError stderr stdout code).code =
        ErrorCode.GEMINI_AUTH_ERROR) ∧
    (strIncludes stderr "Authentication failed" = false →
     strIncludes stderr "Unauthorized" = false →
     (strIncludes stderr "Rate limit" = true ∨
      strIncludes stderr "quota" = true) →
      mapChildProcessError stderr stdout code =
        rateLimitExceeded (childDetails stderr stdout code)) ∧
    (strIncludes stderr "Authentication failed" = false →
     strIncludes stderr "Unauthorized" = false →
     strIncludes stderr "Rate limit" = false →
     strIncludes stderr "quota" = false →
      mapChildProcessError stderr stdout code =
        networkError ("Gemini CLI実行エラー (code: " ++ codeToString code ++ ")")
          (childDetails stderr stdout code) ∧
      (mapChildProcessError stderr stdout code).code =
        ErrorCode.NETWORK_ERROR ∧
      (mapChildProcessError stderr stdout code).details =
        childDetails stderr stdout code) ∧
    (mapChildProcessError "Error: Rate limit exceeded" "" (some 1)).code =
      ErrorCode.RATE_LIMIT_EXCEEDED := by
  refine ⟨?_, ?_, ?_, by decide⟩
  · rintro (h | h) <;>
      simp [mapChildProcessError, authenticationFailed, h]
  · rintro h1 h2 (h | h) <;>
      simp [mapChildProcessError, rateLimitExceeded, h1, h2, h]
  · intro h1 h2 h3 h4
    simp [mapChildProcessError, networkError, h1, h2, h3, h4]

/-- Witness for C2: a rate-limited stderr with no authentication phrasing. -/
theorem mapChildProcessError_classification_witness :
    mapChildProcessError "Rate limit reached" "partial output" (some 1) =
      rateLimitExceeded
        (childDetails "Rate limit reached" "partial output" (some 1)) :=
  (mapChildProcessError_classification "Rate limit reached" "partial output"
    (some 1)).2.1 (by decide) (by decide) (Or.inl (by decide))

/-- The per-line outcome of List Extraction: `some` of the stripped and
trimmed item exactly when the line carries a bullet or numbered-list marker
and does not trim down to the empty string. -/
def itemOfLine (line : List Char) : Option String :=
  if matchBullet line || matchNum line then
    if 0 < (trimChars (stripNum (stripBullet line))).length then
      some (trimChars (stripNum (stripBullet line))).asString
    else none
  else none

theorem filter_map_filter_map_eq_filterMap {α β : Type} (p : α → Bool)
    (f : α → β) (q : β → Bool) (g : β → γ) (l : List α) :
    (((l.filter p).map f).filter q).map g =
      l.filterMap (fun a =>
        if p a then (if q (f a) then some (g (f a)) else none) else none) := by
  induction l with
  | nil => rfl
  | cons x xs ih =>
    by_cases hp : p x
    · by_cases hq : q (f x) <;>
        simp [List.filter_cons, List.filterMap_cons, hp, hq, ih]
    · simp [List.filter_cons, List.filterMap_cons, hp, ih]

/-- C7: List Extraction keeps exactly the lines beginning with a bullet
(`-`, `*`, `•`) or numbered-list (`digits.`) marker, strips the marker and
surrounding whitespace, discards entries that become empty, preserves line
order and does not deduplicate; on the spec's example it returns exactly
["apple", "banana", "cherry"]. -/
theorem extractObjectsList_spec :
    (∀ text : String,
      extractObjectsList text = (splitLines text.data).filterMap itemOfLine) ∧
    extractObjectsList "- apple\n* banana\n1. cherry\nnotaitem" =
      ["apple", "banana", "cherry"] ∧
    extractObjectsList "- dup\n- dup" = ["dup", "dup"] := by
  refine ⟨fun text => ?_, by decide, by decide⟩
  rw [extractObjectsList, filter_map_filter_map_eq_filterMap]
  apply List.filterMap_congr
  intro line _
  simp only [itemOfLine, decide_eq_true_eq]

theorem extractConfidenceScore_of_match (text : String) (q : ℚ)
    (h : confMatch text = some q) :
    extractConfidenceScore text = if 1 < q then q / 100 else q := by
  simp [extractConfidenceScore, h]

theorem extractConfidenceScore_of_none (text : String)
    (h : confMatch text = none) :
    extractConfidenceScore text = DEFAULT_CONFIDENCE_SCORE := by
  simp [extractConfidenceScore, h]

theorem confMatch_85p : confMatch "信頼度: 85%" = some 85 := by
  rw [show confMatch "信頼度: 85%" = some (ratOfDecimal ['8', '5'] []) from
    rfl]
  norm_num [ratOfDecimal, show natOfDigits ['8', '5'] = 85 from rfl,
    show natOfDigits ([] : List Char) = 0 from rfl]

theorem confMatch_85 : confMatch "信頼度: 85" = some 85 := by
  rw [show confMatch "信頼度: 85" = some (ratOfDecimal ['8', '5'] []) from
    rfl]
  norm_num [ratOfDecimal, show natOfDigits ['8', '5'] = 85 from rfl,
    show natOfDigits ([] : List Char) = 0 from rfl]

theorem confMatch_06 : confMatch "信頼度: 0.6" = some (3/5) := by
  rw [show confMatch "信頼度: 0.6" = some (ratOfDecimal ['0'] ['6']) from
    rfl]
  norm_num [ratOfDecimal, show natOfDigits ['0'] = 0 from rfl,
    show natOfDigits ['6'] = 6 from rfl]

/-- C5: Confidence Extraction parses the first labeled confidence value
(optional percent sign); a parsed value greater than 1 is divided by 100,
values at most 1 pass through, and no match yields the default 0.8; on the
spec's examples "信頼度: 85%" and "信頼度: 85" give 0.85 and "信頼度: 0.6"
gives 0.6. -/
theorem extractConfidenceScore_spec :
    (∀ (text : String) (q : ℚ), confMatch text = some q →
      extractConfidenceScore text = if 1 < q then q / 100 else q) ∧
    (∀ text : String, confMatch text = none →
      extractConfidenceScore text = DEFAULT_CONFIDENCE_SCORE) ∧
    extractConfidenceScore "信頼度: 85%" = 85/100 ∧
    extractConfidenceScore "信頼度: 85" = 85/100 ∧
    extractConfidenceScore "信頼度: 0.6" = 6/10 := by
  refine ⟨extractConfidenceScore_of_match, extractConfidenceScore_of_none,
    ?_, ?_, ?_⟩
  · rw [extractConfidenceScore_of_match _ _ confMatch_85p]
    norm_num
  · rw [extractConfidenceScore_of_match _ _ confMatch_85]
    norm_num
  · rw [extractConfidenceScore_of_match _ _ confMatch_06]
    norm_num

/-- Witness for C5: a percentage-form confidence value parsed and divided by
100. -/
theorem extractConfidenceScore_spec_witness :
    extractConfidenceScore "信頼度: 42%" =
      if 1 < (42 : ℚ) then (42 : ℚ) / 100 else (42 : ℚ) :=
  extractConfidenceScore_spec.1 "信頼度: 42%" 42 (by
    rw [show confMatch "信頼度: 42%" = some (ratOfDecimal ['4', '2'] []) from
      rfl]
    norm_num [ratOfDecimal, show natOfDigits ['4', '2'] = 42 from rfl,
      show natOfDigits ([] : List Char) = 0 from rfl])

/-- C4: the Result Extractor is total (each extractor below is a total
function, so no input can raise an error) and every unmatched pattern yields
the field's zero-value: no marker line → empty object list, no カテゴリ and no
タグ label → empty category list, no 信頼度 label → the fixed default
confidence, no 色 label → empty color list. -/
theorem extractors_degrade_to_defaults (text : String) :
    ((splitLines text.data).filter
        (fun line => matchBullet line || matchNum line) = [] →
      extractObjectsList text = []) ∧
    (catMatch text = none → tagMatch text = none →
      extractCategories text = []) ∧
    (confMatch text = none →
      extractConfidenceScore text = DEFAULT_CONFIDENCE_SCORE) ∧
    (colorMatch text = none → extractColorInfo text = []) := by
  refine ⟨fun h => ?_, fun h1 h2 => ?_, extractConfidenceScore_of_none text,
    fun h => ?_⟩
  · rw [extractObjectsList, h]
    rfl
  · simp [extractCategories, h1, h2]
  · simp [extractColorInfo, h]

/-- Witness for C4: a pattern-free text yields every zero-value. -/
theorem extractors_degrade_to_defaults_witness :
    extractObjectsList "plain sentence" = [] ∧
    extractCategories "plain sentence" = [] ∧
    extractConfidenceScore "plain sentence" = DEFAULT_CONFIDENCE_SCORE ∧
    extractColorInfo "plain sentence" = [] :=
  ⟨(extractors_degrade_to_defaults "plain sentence").1 (by decide),
   (extractors_degrade_to_defaults "plain sentence").2.1 (by decide)
     (by decide),
   (extractors_degrade_to_defaults "plain sentence").2.2.1 (by decide),
   (extractors_degrade_to_defaults "plain sentence").2.2.2 (by decide)⟩

theorem parseAnalysisResult_confidence_eq (raw : String) (md : ImageMetadata)
    (options : ImageAnalysisOptions) (t : Int) :
    (parseAnalysisResult raw md options t).confidence =
      if options.includeConfidence then extractConfidenceScore raw
      else 8/10 := by
  obtain ⟨a, d, ic, ec, df, rq, im⟩ := options
  cases a <;> cases ic <;> cases ec <;> simp [parseAnalysisResult]

theorem ratOfDecimal_nonneg (ip fp : List Char) : 0 ≤ ratOfDecimal ip fp := by
  unfold ratOfDecimal
  positivity

theorem matchConfAt_nonneg {cs : List Char} {q : ℚ}
    (h : matchConfAt cs = some q) : 0 ≤ q := by
  by_cases hs : startsWithChars "信頼度".data cs = true
  · simp only [matchConfAt, hs, if_true] at h
    split at h
    · cases h
    · injection h with h
      exact h ▸ ratOfDecimal_nonneg _ _
  · simp [matchConfAt, hs] at h

theorem scanFor_some_of {α : Type} (m : List Char → Option α) :
    ∀ (cs : List Char) (v : α), scanFor m cs = some v → ∃ t, m t = some v := by
  intro cs
  induction cs with
  | nil => exact fun v h => ⟨[], h⟩
  | cons c cs ih =>
    intro v h
    simp only [scanFor] at h
    cases hm : m (c :: cs) with
    | some u =>
      rw [hm] at h
      exact ⟨c :: cs, hm.trans h⟩
    | none =>
      rw [hm] at h
      exact ih v h

theorem confMatch_nonneg (text : String) (q : ℚ)
    (h : confMatch text = some q) : 0 ≤ q := by
  obtain ⟨t, ht⟩ := scanFor_some_of matchConfAt text.data q h
  exact matchConfAt_nonneg ht

theorem extractConfidenceScore_unit (text : String)
    (hb : ∀ q : ℚ, confMatch text = some q → q ≤ 100) :
    0 ≤ extractConfidenceScore text ∧ extractConfidenceScore text ≤ 1 := by
  cases hm : confMatch text with
  | none =>
    rw [extractConfidenceScore_of_none text hm]
    norm_num [DEFAULT_CONFIDENCE_SCORE]
  | some q =>
    have h0 := confMatch_nonneg text q hm
    have h100 := hb q hm
    rw [extractConfidenceScore_of_match text q hm]
    split_ifs with h1
    · refine ⟨by positivity, ?_⟩
      rw [div_le_one (by norm_num)]
      exact h100
    · exact ⟨h0, le_of_not_lt h1⟩

theorem confMatch_850 : confMatch "信頼度: 850" = some 850 := by
  rw [show confMatch "信頼度: 850" =
    some (ratOfDecimal ['8', '5', '0'] []) from rfl]
  norm_num [ratOfDecimal, show natOfDigits ['8', '5', '0'] = 850 from rfl,
    show natOfDigits ([] : List Char) = 0 from rfl]

/-- Counterexample to C6: the raw text "信頼度: 850" (a numeric value above
100) with `includeConfidence` set produces a confidence of 8.5, outside
[0,1]. -/
theorem parseAnalysisResult_confidence_exceeds_one :
    ¬ ((parseAnalysisResult "信頼度: 850" ⟨"img.png", 100, 10, 10, "png"⟩
        ⟨AnalysisType.describe, DetailLevel.standard, true, false, false,
         false, false⟩ 0).confidence ≤ 1) := by
  intro hle
  rw [show (parseAnalysisResult "信頼度: 850"
      ⟨"img.png", 100, 10, 10, "png"⟩
      ⟨AnalysisType.describe, DetailLevel.standard, true, false, false,
       false, false⟩ 0).confidence =
    extractConfidenceScore "信頼度: 850" from rfl] at hle
  rw [extractConfidenceScore_of_match _ _ confMatch_850] at hle
  norm_num at hle

/-- C6 (amended): for every raw text whose matched confidence value (if any)
is at most 100 — in particular every percentage in [0,100] and every
fractional value in [0,1] — the confidence of the produced AnalysisResult
lies in [0,1]; without that bound the code can exceed 1. -/
theorem parseAnalysisResult_confidence_unit_interval (raw : String)
    (md : ImageMetadata) (options : ImageAnalysisOptions) (t : Int)
    (hb : ∀ q : ℚ, confMatch raw = some q → q ≤ 100) :
    0 ≤ (parseAnalysisResult raw md options t).confidence ∧
    (parseAnalysisResult raw md options t).confidence ≤ 1 := by
  rw [parseAnalysisResult_confidence_eq]
  split_ifs with h
  · exact extractConfidenceScore_unit raw hb
  · norm_num

/-- Witness for the amended C6 at a percentage-form confidence text. -/
theorem parseAnalysisResult_confidence_unit_interval_witness :
    0 ≤ (parseAnalysisResult "信頼度: 85%" ⟨"img.png", 100, 10, 10, "png"⟩
        ⟨AnalysisType.describe, DetailLevel.standard, true, false, false,
         false, false⟩ 0).confidence ∧
    (parseAnalysisResult "信頼度: 85%" ⟨"img.png", 100, 10, 10, "png"⟩
        ⟨AnalysisType.describe, DetailLevel.standard, true, false, false,
         false, false⟩ 0).confidence ≤ 1 :=
  parseAnalysisResult_confidence_unit_interval "信頼度: 85%"
    ⟨"img.png", 100, 10, 10, "png"⟩
    ⟨AnalysisType.describe, DetailLevel.standard, true, false, false,
     false, false⟩ 0
    (by
      intro q hq
      rw [confMatch_85p] at hq
      injection hq with hq
      rw [← hq]
      norm_num)

theorem filterMap_eq_nil_of_none {α β : Type} (f : α → Option β)
    (l : List α) (h : ∀ a ∈ l, f a = none) : l.filterMap f = [] := by
  induction l with
  | nil => rfl
  | cons x xs ih =>
    rw [List.filterMap_cons, h x (by simp)]
    exact ih (fun a ha => h a (by simp [ha]))

/-- C1: batch analysis partitions the inputs into contiguous windows of size
`C` (final window possibly smaller), a per-item failure never fails the
batch — the returned list holds exactly the results of the successful items
and is empty when every item fails — and with `C = 2` and five inputs the
windows have sizes [2,2,1] while a single failing item yields a list of
length 4. -/
theorem batchAnalyze_window_error_handling {E A : Type} (C : Nat)
    (analyze : String → ImageAnalysisOptions → Except E A)
    (paths : List String) (options : ImageAnalysisOptions) (hC : 0 < C) :
    (chunksOf C paths).flatten = paths ∧
    (∀ w ∈ chunksOf C paths, 0 < w.length ∧ w.length ≤ C) ∧
    (∀ w ∈ (chunksOf C paths).dropLast, w.length = C) ∧
    batchAnalyze C analyze paths options =
      paths.filterMap (fun p => exceptToOption (analyze p options)) ∧
    ((∀ p ∈ paths, exceptToOption (analyze p options) = none) →
      batchAnalyze C analyze paths options = []) ∧
    (∀ p1 p2 p3 p4 p5 : String,
      (chunksOf 2 [p1, p2, p3, p4, p5]).map List.length = [2, 2, 1]) ∧
    (∀ (g : String → ImageAnalysisOptions → Except E A)
       (o : ImageAnalysisOptions) (p1 p2 p3 p4 p5 : String),
      exceptToOption (g p3 o) = none →
      (∀ p ∈ [p1, p2, p4, p5], (exceptToOption (g p o)).isSome = true) →
      (batchAnalyze 2 g [p1, p2, p3, p4, p5] o).length = 4) := by
  refine ⟨chunksOf_flatten C hC paths,
    fun w hw => chunksF_mem_length C hC paths.length paths w le_rfl hw,
    fun w hw => chunksF_dropLast_length C hC paths.length paths w le_rfl hw,
    batchAnalyze_eq_filterMap C hC analyze paths options,
    fun h => ?_, fun p1 p2 p3 p4 p5 => rfl, ?_⟩
  · rw [batchAnalyze_eq_filterMap C hC analyze paths options]
    exact filterMap_eq_nil_of_none _ paths h
  · intro g o p1 p2 p3 p4 p5 h3 hok
    obtain ⟨a1, e1⟩ := Option.isSome_iff_exists.mp (hok p1 (by simp))
    obtain ⟨a2, e2⟩ := Option.isSome_iff_exists.mp (hok p2 (by simp))
    obtain ⟨a4, e4⟩ := Option.isSome_iff_exists.mp (hok p4 (by simp))
    obtain ⟨a5, e5⟩ := Option.isSome_iff_exists.mp (hok p5 (by simp))
    rw [batchAnalyze_eq_filterMap 2 (by norm_num) g [p1, p2, p3, p4, p5] o]
    simp [List.filterMap_cons, e1, e2, h3, e4, e5]

/-- A concrete analysis options value for the C1 witness. -/
def exampleOptions : ImageAnalysisOptions :=
  ⟨AnalysisType.describe, DetailLevel.standard, false, false, false, false,
   false⟩

/-- A concrete per-item analysis for the C1 witness: item "c" rejects, every
other item fulfills with its path length. -/
def exampleAnalyze : String → ImageAnalysisOptions → Except Unit Nat :=
  fun p _ => if p = "c" then Except.error () else Except.ok p.length

/-- Witness for C1 at concurrency 2 and five concrete inputs. -/
theorem batchAnalyze_window_error_handling_witness :
    0 < 2 ∧
    ((chunksOf 2 ["a", "b", "c", "d", "e"]).flatten =
        ["a", "b", "c", "d", "e"] ∧
     (∀ w ∈ chunksOf 2 ["a", "b", "c", "d", "e"],
        0 < w.length ∧ w.length ≤ 2) ∧
     (∀ w ∈ (chunksOf 2 ["a", "b", "c", "d", "e"]).dropLast,
        w.length = 2) ∧
     batchAnalyze 2 exampleAnalyze ["a", "b", "c", "d", "e"]
         exampleOptions =
       ["a", "b", "c", "d", "e"].filterMap
         (fun p => exceptToOption (exampleAnalyze p exampleOptions)) ∧
     ((∀ p ∈ ["a", "b", "c", "d", "e"],
        exceptToOption (exampleAnalyze p exampleOptions) = none) →
       batchAnalyze 2 exampleAnalyze ["a", "b", "c", "d", "e"]
         exampleOptions = []) ∧
     (∀ p1 p2 p3 p4 p5 : String,
       (chunksOf 2 [p1, p2, p3, p4, p5]).map List.length = [2, 2, 1]) ∧
     (∀ (g : String → ImageAnalysisOptions → Except Unit Nat)
        (o : ImageAnalysisOptions) (p1 p2 p3 p4 p5 : String),
       exceptToOption (g p3 o) = none →
       (∀ p ∈ [p1, p2, p4, p5], (exceptToOption (g p o)).isSome = true) →
       (batchAnalyze 2 g [p1, p2, p3, p4, p5] o).length = 4)) :=
  ⟨by decide,
   batchAnalyze_window_error_handling 2 exampleAnalyze
     ["a", "b", "c", "d", "e"] exampleOptions (by decide)⟩

/-- C10: the list returned by batch analysis is exactly the in-order list of
the successful items' results — windows are processed in sequence and within
a window settled results are appended in the window's input order, so each
successful item contributes exactly one result and relative input order is
preserved across the whole batch. -/
theorem batchAnalyze_preserves_input_order {E A : Type} (C : Nat)
    (analyze : String → ImageAnalysisOptions → Except E A)
    (paths : List String) (options : ImageAnalysisOptions) (hC : 0 < C) :
    batchAnalyze C analyze paths options =
      paths.filterMap (fun p => exceptToOption (analyze p options)) :=
  batchAnalyze_eq_filterMap C hC analyze paths options

/-- Witness for C10: a middle item fails, the two successes appear in input
order. -/
theorem batchAnalyze_preserves_input_order_witness :
    batchAnalyze 2
      (fun p (_ : ImageAnalysisOptions) =>
        if p = "bb" then (Except.error () : Except Unit Nat)
        else Except.ok p.length)
      ["a", "bb", "ccc"]
      ⟨AnalysisType.describe, DetailLevel.standard, false, false, false,
       false, false⟩ = [1, 3] := by
  rw [batchAnalyze_preserves_input_order 2 _ _ _ (by decide)]
  decide
